import Mathlib

/-!
Verification of the connection-lifecycle and read-only-enforcement core of an
MCP database server: permission verifiers (traditional RDBMS and Databricks),
the connection-pool registry, the circuit breaker, the timeout manager and the
Databricks session-pool adapter, shallowly embedded from the TypeScript source.
-/

namespace DbMcp

/-- Does `pat` occur as a contiguous run inside `l`? -/
def listContainsSub : List Char → List Char → Bool
  | [], pat => pat.isEmpty
  | l@(_ :: t), pat => List.isPrefixOf pat l || listContainsSub t pat

/-- Substring containment, mirroring JavaScript `String.prototype.includes`. -/
def strContains (s pat : String) : Bool :=
  listContainsSub s.toList pat.toList

/-- ASCII uppercasing, mirroring `String.prototype.toUpperCase` on the ASCII
tokens this code handles (stated over the character list so that it reduces
definitionally). -/
def strToUpper (s : String) : String :=
  String.mk (s.toList.map Char.toUpper)

/-- JavaScript truthiness of an optional string: `undefined`/`null` and the
empty string are falsy. -/
def jsTruthy : Option String → Bool
  | none => false
  | some s => s ≠ ""

/-! ## Traditional-RDBMS permission verifier (`write-permission-checker.ts`) -/

/-- The uppercased single-string grants view built by the checker:
`grantsRows.map(firstValue).join(' ').toUpperCase()`. -/
def grantsString (grantRows : List String) : String :=
  strToUpper (String.intercalate " " grantRows)

/-- `grants.includes('SUPER') || grants.includes('ALL PRIVILEGES')`. -/
def hasSuper (grants : String) : Bool :=
  strContains grants "SUPER" || strContains grants "ALL PRIVILEGES"

/-- `/INSERT|UPDATE|DELETE|CREATE|DROP|ALTER|ALL PRIVILEGES/.test(grants)`. -/
def hasWritePrivileges (grants : String) : Bool :=
  ["INSERT", "UPDATE", "DELETE", "CREATE", "DROP", "ALTER", "ALL PRIVILEGES"].any
    (fun pat => strContains grants pat)

/-- `grants.includes('EXECUTE')`. -/
def hasExecute (grants : String) : Bool :=
  strContains grants "EXECUTE"

/-- `isStrictlyReadOnlySession` from `write-permission-checker.ts`, with the
results of the four server round-trips (three variables and the grant rows)
taken as inputs. -/
def isStrictlyReadOnlySession (innodbReadOnly readOnly superReadOnly : String)
    (grantRows : List String) : Bool :=
  let isReadOnlyNode := readOnly == "ON" || superReadOnly == "ON"
  let grants := grantsString grantRows
  let hSuper := hasSuper grants
  let hWrite := hasWritePrivileges grants
  let hExec := hasExecute grants
  if innodbReadOnly == "ON" then
    true
  else if isReadOnlyNode then
    !hSuper
  else
    !(hWrite || hExec)

/-- The two-branch truth table exactly as the spec states it (spec §4.2/§8),
written from the spec's words for comparison with the source function. -/
def specReadOnlyTruthTable (innodbReadOnly readOnly superReadOnly : String)
    (grants : String) : Bool :=
  if innodbReadOnly == "ON" then
    true
  else if readOnly == "ON" || superReadOnly == "ON" then
    !(strContains grants "SUPER" || strContains grants "ALL PRIVILEGES")
  else
    !(["INSERT", "UPDATE", "DELETE", "CREATE", "DROP", "ALTER", "ALL PRIVILEGES"].any
        (fun pat => strContains grants pat) || strContains grants "EXECUTE")

end DbMcp

namespace DbMcp

/-! ## Databricks permission verifier (`databricks-permission-checker.ts`) -/

/-- One row returned by `SHOW GRANTS ON ...`; the action column may appear
under any of four names depending on the Databricks version. -/
structure Grant where
  action_type : Option String
  ActionType : Option String
  privilege : Option String
  Privilege : Option String
  deriving DecidableEq

/-- JavaScript `a || b` on a possibly-undefined string: `undefined`, `null`
and the empty string fall through to `b`. -/
def jsOrStr (a : Option String) (b : String) : String :=
  match a with
  | none => b
  | some s => if s = "" then b else s

/-- `grant.action_type || grant.ActionType || grant.privilege ||
grant.Privilege || ''`. -/
def grantAction (g : Grant) : String :=
  jsOrStr g.action_type (jsOrStr g.ActionType (jsOrStr g.privilege (jsOrStr g.Privilege "")))

/-- The write-permission set from the checker. -/
def writePermissions : List String :=
  ["CREATE", "MODIFY", "DELETE", "DROP", "ALTER", "UPDATE", "INSERT", "WRITE_FILES", "REFRESH"]

/-- `writePermissions.some(perm => upperAction.includes(perm))`. -/
def isWriteAction (g : Grant) : Bool :=
  writePermissions.any (fun perm => strContains (strToUpper (grantAction g)) perm)

/-- `upperAction.includes('EXECUTE')`. -/
def isExecuteAction (g : Grant) : Bool :=
  strContains (strToUpper (grantAction g)) "EXECUTE"

/-- Outcomes of the server round-trips made by `isDatabricksReadOnlySession`,
taken as inputs; `.error` means the corresponding query threw. -/
structure DbxSession where
  userQueryOk : Bool
  catalogQuery : Except Unit (Option String)
  catalogGrants : Except Unit (List Grant)
  schemaQuery : Except Unit (Option String)
  schemaGrants : Except Unit (List Grant)
  createTempView : Except String Unit

/-- The grant-collection phase (the inner `try` of the checker up to the
classification loop): catalog grants when a catalog is set, then the current
schema, then best-effort schema grants whose failure is only logged. Any
failure of the non-best-effort queries aborts the whole enumeration. -/
def enumerateGrants (s : DbxSession) (currentCatalog : Option String) :
    Except Unit (List Grant) := do
  let catalogPart ← if jsTruthy currentCatalog then s.catalogGrants else pure []
  let currentSchema ← s.schemaQuery
  let schemaPart :=
    if jsTruthy currentSchema && jsTruthy currentCatalog then
      match s.schemaGrants with
      | .ok g => g
      | .error _ => []
    else []
  pure (catalogPart ++ schemaPart)

/-- The error-message signatures treated as permission denials by the probe. -/
def permissionDeniedSignatures : List String :=
  ["PERMISSION_DENIED", "does not have privilege", "insufficient privileges", "CREATE", "denied"]

/-- Does the probe failure message look like a permission denial? -/
def isPermissionDeniedMsg (msg : String) : Bool :=
  permissionDeniedSignatures.any (fun sig => strContains msg sig)

/-- The active-probe fallback: create a temporary view; success means
writable (`false`), a permission-denied failure means read-only (`true`), and
any other failure also defaults to read-only. -/
def writeProbe (s : DbxSession) : Bool :=
  match s.createTempView with
  | .ok _ => false
  | .error msg => if isPermissionDeniedMsg msg then true else true

/-- `isDatabricksReadOnlySession` from `databricks-permission-checker.ts`. -/
def isDatabricksReadOnlySession (s : DbxSession) : Bool :=
  if !s.userQueryOk then true
  else
    match s.catalogQuery with
    | .error _ => true
    | .ok currentCatalog =>
      match enumerateGrants s currentCatalog with
      | .ok allGrants => !(allGrants.any isWriteAction)
      | .error _ => writeProbe s

/-- A concrete session used to witness `databricks_grants_classification`:
catalog `main`, one grant whose action token is `MODIFY`. -/
def sampleWritableSession : DbxSession where
  userQueryOk := true
  catalogQuery := .ok (some "main")
  catalogGrants := .ok [⟨some "MODIFY", none, none, none⟩]
  schemaQuery := .ok none
  schemaGrants := .error ()
  createTempView := .error "x"

/-- A concrete session whose grant enumeration fails and whose probe
succeeds, used to witness `databricks_probe_fallback`. -/
def sampleProbeSession : DbxSession where
  userQueryOk := true
  catalogQuery := .ok (some "main")
  catalogGrants := .error ()
  schemaQuery := .ok none
  schemaGrants := .error ()
  createTempView := .ok ()

/-! ## Timeout manager (`timeout-manager.ts`) -/

/-- The named timeout kinds of the timeout manager. -/
inductive TimeoutType where
  | queryExecution
  | connectionAcquisition
  | idleConnection
  | poolCreation
  | transaction
  | healthCheck
  deriving DecidableEq

/-- The `DEFAULT_TIMEOUTS` table (milliseconds). -/
def DEFAULT_TIMEOUTS : TimeoutType → Nat
  | .queryExecution => 30000
  | .connectionAcquisition => 5000
  | .idleConnection => 60000
  | .poolCreation => 10000
  | .transaction => 60000
  | .healthCheck => 3000

/-- The manager's mutable `timeouts` record: the stored duration per kind. -/
def TimeoutState : Type := TimeoutType → Nat

/-- The constructor state `{ ...DEFAULT_TIMEOUTS }`. -/
def initialTimeouts : TimeoutState := DEFAULT_TIMEOUTS

/-- `TimeoutManager.setTimeout`: store `durationMs` for the kind. -/
def setTimeoutKind (ts : TimeoutState) (timeoutType : TimeoutType) (durationMs : Nat) :
    TimeoutState :=
  fun t => if t = timeoutType then durationMs else ts t

/-- JavaScript `a || b` on numbers: `0` is falsy. -/
def jsOrNat (a b : Nat) : Nat :=
  if a = 0 then b else a

/-- `TimeoutManager.getTimeout`:
`this.timeouts[t] || DEFAULT_TIMEOUTS[t] || 30000`. -/
def getTimeout (ts : TimeoutState) (timeoutType : TimeoutType) : Nat :=
  jsOrNat (ts timeoutType) (jsOrNat (DEFAULT_TIMEOUTS timeoutType) 30000)

/-- The typed timeout errors raised on timer expiry. -/
inductive TimeoutErr where
  | connectionTimeout (timeout : Nat)
  | databaseTimeout (timeoutType : TimeoutType) (timeout : Nat)
  deriving DecidableEq

/-- Observable outcome of `withTimeout`: the operation's value, the
operation's own error, or a typed timeout rejection. -/
inductive TOResult (α : Type) where
  | ok (a : α)
  | opErr (e : String)
  | timedOut (e : TimeoutErr)
  deriving DecidableEq

/-- `customTimeout || this.getTimeout(timeoutType)`: `null` and `0` both fall
back to the configured budget. -/
def effectiveTimeout (ts : TimeoutState) (timeoutType : TimeoutType)
    (customTimeout : Option Nat) : Nat :=
  match customTimeout with
  | none => getTimeout ts timeoutType
  | some c => jsOrNat c (getTimeout ts timeoutType)

/-- `TimeoutManager.withTimeout`: the operation is modelled by the instant it
settles (`settleAt`, relative to the start of the race) and its own outcome.
The timer wins exactly when the operation has not settled strictly before the
effective budget, and then raises the kind-appropriate typed error carrying
the budget; otherwise the timer is cancelled and the operation's outcome is
propagated unchanged. -/
def withTimeout {α : Type} (ts : TimeoutState) (timeoutType : TimeoutType)
    (customTimeout : Option Nat) (settleAt : Nat) (outcome : Except String α) :
    TOResult α :=
  let timeoutMs := effectiveTimeout ts timeoutType customTimeout
  if settleAt < timeoutMs then
    match outcome with
    | .ok a => .ok a
    | .error e => .opErr e
  else
    .timedOut
      (if timeoutType = .connectionAcquisition then .connectionTimeout timeoutMs
       else .databaseTimeout timeoutType timeoutMs)

/-! ## Circuit breaker (`retry-strategy.ts`) -/

/-- Breaker states. -/
inductive BState where
  | CLOSED
  | OPEN
  | HALF_OPEN
  deriving DecidableEq

/-- Per-key breaker record. -/
structure BreakerState where
  state : BState
  failureCount : Nat
  successCount : Nat
  lastFailureTime : Option Nat
  lastStateChange : Nat
  deriving DecidableEq

/-- Circuit-breaker configuration (defaults 5 / 30000ms / 5000ms / 2). -/
structure CircuitBreakerConfig where
  failureThreshold : Nat
  resetTimeout : Nat
  monitorInterval : Nat
  halfOpenSuccessThreshold : Nat

/-- The `globalCircuitBreaker` configuration. -/
def defaultBreakerConfig : CircuitBreakerConfig :=
  ⟨5, 30000, 5000, 2⟩

/-- The lazily created initial record of `getBreaker`. -/
def freshBreaker (now : Nat) : BreakerState :=
  ⟨.CLOSED, 0, 0, none, now⟩

/-- The per-database breaker map `dbBreakers`. -/
def CBMap : Type := String → Option BreakerState

/-- `getBreaker`: return the stored record or lazily create a fresh one. -/
def getBreaker (m : CBMap) (dbKey : String) (now : Nat) : BreakerState :=
  (m dbKey).getD (freshBreaker now)

/-- Point update of the breaker map. -/
def updateMap (m : CBMap) (dbKey : String) (b : BreakerState) : CBMap :=
  fun k => if k = dbKey then some b else m k

/-- `CircuitBreaker.open` on one record. -/
def openB (b : BreakerState) (now : Nat) : BreakerState :=
  if b.state ≠ .OPEN then
    { b with state := .OPEN, lastStateChange := now, successCount := 0 }
  else b

/-- `CircuitBreaker.halfOpen` on one record. -/
def halfOpenB (b : BreakerState) (now : Nat) : BreakerState :=
  if b.state ≠ .HALF_OPEN then
    { b with state := .HALF_OPEN, lastStateChange := now, successCount := 0 }
  else b

/-- `CircuitBreaker.close` on one record. -/
def closeB (b : BreakerState) (now : Nat) : BreakerState :=
  if b.state ≠ .CLOSED then
    { b with state := .CLOSED, lastStateChange := now, failureCount := 0, successCount := 0 }
  else b

/-- `CircuitBreaker.isAllowed` on one record: in OPEN, reject until
`resetTimeout` has elapsed since the last state change, then transition to
HALF_OPEN and allow. -/
def isAllowedB (cfg : CircuitBreakerConfig) (b : BreakerState) (now : Nat) :
    Bool × BreakerState :=
  if b.state = .OPEN then
    if cfg.resetTimeout ≤ now - b.lastStateChange then (true, halfOpenB b now)
    else (false, b)
  else (true, b)

/-- `CircuitBreaker.recordSuccess` on one record. -/
def recordSuccessB (cfg : CircuitBreakerConfig) (b : BreakerState) (now : Nat) :
    BreakerState :=
  if b.state = .HALF_OPEN then
    let b' := { b with successCount := b.successCount + 1 }
    if cfg.halfOpenSuccessThreshold ≤ b'.successCount then closeB b' now else b'
  else if b.state = .CLOSED then { b with failureCount := 0 }
  else b

/-- `CircuitBreaker.recordFailure` on one record. -/
def recordFailureB (cfg : CircuitBreakerConfig) (b : BreakerState) (now : Nat) :
    BreakerState :=
  let b0 := { b with lastFailureTime := some now }
  if b0.state = .HALF_OPEN then openB b0 now
  else if b0.state = .CLOSED then
    let b' := { b0 with failureCount := b0.failureCount + 1 }
    if cfg.failureThreshold ≤ b'.failureCount then openB b' now else b'
  else b0

/-- Keyed `isAllowed` over the breaker map. -/
def isAllowed (cfg : CircuitBreakerConfig) (m : CBMap) (dbKey : String) (now : Nat) :
    Bool × CBMap :=
  let b := getBreaker m dbKey now
  let r := isAllowedB cfg b now
  (r.1, updateMap m dbKey r.2)

/-- Keyed `recordSuccess` over the breaker map. -/
def recordSuccess (cfg : CircuitBreakerConfig) (m : CBMap) (dbKey : String) (now : Nat) :
    CBMap :=
  updateMap m dbKey (recordSuccessB cfg (getBreaker m dbKey now) now)

/-- Keyed `recordFailure` over the breaker map. -/
def recordFailure (cfg : CircuitBreakerConfig) (m : CBMap) (dbKey : String) (now : Nat) :
    CBMap :=
  updateMap m dbKey (recordFailureB cfg (getBreaker m dbKey now) now)

/-- A sequence of consecutive `recordFailure` calls at the given instants. -/
def recordFailures (cfg : CircuitBreakerConfig) (m : CBMap) (dbKey : String)
    (times : List Nat) : CBMap :=
  times.foldl (fun acc t => recordFailure cfg acc dbKey t) m

/-- A sequence of consecutive `recordSuccess` calls at the given instants. -/
def recordSuccesses (cfg : CircuitBreakerConfig) (m : CBMap) (dbKey : String)
    (times : List Nat) : CBMap :=
  times.foldl (fun acc t => recordSuccess cfg acc dbKey t) m

/-- A breaker map holding one fresh record under key `db`, for witnesses. -/
def sampleBreakerMap : CBMap :=
  updateMap (fun _ => none) "db" (freshBreaker 0)

/-! ## Databricks session-pool adapter (`databricks-adapter.ts`)

Sessions are identified by numbers handed out by a fresh-id counter (the
source works with reference-distinct session objects). `activeSessions` is a
JavaScript `Set` kept as an insertion-ordered duplicate-free list. Operations
are modelled atomically, as required of them by the spec's concurrency
section. -/

/-- `Set.add`: append if absent. -/
def setAdd (l : List Nat) (s : Nat) : List Nat :=
  if s ∈ l then l else l ++ [s]

/-- `Set.delete`: remove the element. -/
def setDelete (l : List Nat) (s : Nat) : List Nat :=
  l.filter (fun x => x ≠ s)

/-- The adapter's session-tracking state. -/
structure AdapterState where
  sessions : List Nat
  availableSessions : List Nat
  activeSessions : List Nat
  pendingRequests : Nat
  isDestroyed : Bool
  nextId : Nat
  maxSize : Nat
  deriving DecidableEq

/-- `invalidateSession`: remove the session from all tracking collections
(the close of the server-side handle is best-effort and unmodelled). -/
def invalidateSession (st : AdapterState) (s : Nat) : AdapterState :=
  { st with sessions := st.sessions.filter (fun x => x ≠ s), availableSessions := st.availableSessions.filter (fun x => x ≠ s), activeSessions := setDelete st.activeSessions s }

/-- The validation sweep at the start of `acquireSession`: every available
session is probed with the validity oracle `validf`; invalid ones are
invalidated, and `availableSessions` is then replaced by the valid survivors
(`validSessions` in the source). -/
def cleanupAvailable (validf : Nat → Bool) (st : AdapterState) : AdapterState :=
  let stInv := st.availableSessions.foldl (fun acc s => if validf s then acc else invalidateSession acc s) st
  { stInv with availableSessions := st.availableSessions.filter validf }

/-- The post-sweep body of `acquireSession` on the swept state: pop the last
available session (`Array.prototype.pop`) into the active set; else open a
fresh session when below the max pool size (the new session is pushed to
`availableSessions` by `createSession` and immediately popped); else queue
the request (`none` means queued). -/
def acquireFrom (st1 : AdapterState) : Option Nat × AdapterState :=
  match st1.availableSessions.getLast? with
  | some s =>
    (some s, { st1 with availableSessions := st1.availableSessions.dropLast, activeSessions := setAdd st1.activeSessions s })
  | none =>
    if st1.sessions.length < st1.maxSize then
      (some st1.nextId, { st1 with sessions := st1.sessions ++ [st1.nextId], availableSessions := (st1.availableSessions ++ [st1.nextId]).dropLast, activeSessions := setAdd st1.activeSessions st1.nextId, nextId := st1.nextId + 1 })
    else
      (none, { st1 with pendingRequests := st1.pendingRequests + 1 })

/-- `acquireSession`: throws on a destroyed pool; sweeps invalid sessions;
then hands out a session (or queues) per `acquireFrom`. -/
def acquireSession (validf : Nat → Bool) (st : AdapterState) :
    Except String (Option Nat × AdapterState) :=
  if st.isDestroyed then .error "Connection pool has been destroyed"
  else .ok (acquireFrom (cleanupAvailable validf st))

/-- `releaseSession`: drop the session from the active set, then hand it to
the oldest queued waiter (re-entering the active set) or return it to the
available list. -/
def releaseSession (st : AdapterState) (s : Nat) : AdapterState :=
  let st1 := { st with activeSessions := setDelete st.activeSessions s }
  if 0 < st1.pendingRequests then
    { st1 with pendingRequests := st1.pendingRequests - 1, activeSessions := setAdd st1.activeSessions s }
  else
    { st1 with availableSessions := st1.availableSessions ++ [s] }

/-- `destroy`: idempotent; marks the pool destroyed and clears every
collection. -/
def destroyAdapter (st : AdapterState) : AdapterState :=
  if st.isDestroyed then st
  else { st with isDestroyed := true, sessions := [], availableSessions := [], activeSessions := [], pendingRequests := 0 }

/-- One step of the adapter interface. -/
inductive AdapterOp where
  | acquire (validf : Nat → Bool)
  | release (s : Nat)
  | invalidate (s : Nat)

/-- Apply one operation (an acquire that throws leaves the state unchanged). -/
def applyOp (st : AdapterState) : AdapterOp → AdapterState
  | .acquire validf =>
    match acquireSession validf st with
    | .ok r => r.2
    | .error _ => st
  | .release s => releaseSession st s
  | .invalidate s => invalidateSession st s

/-- Run a sequence of operations. -/
def runOps (st : AdapterState) (ops : List AdapterOp) : AdapterState :=
  ops.foldl applyOp st

/-- Release discipline for one step: a released session must currently be
held (be in the active set). -/
def wfStep (st : AdapterState) : AdapterOp → Bool
  | .release s => decide (s ∈ st.activeSessions)
  | _ => true

/-- Release discipline along a whole sequence. -/
def wfOps (st : AdapterState) : List AdapterOp → Bool
  | [] => true
  | op :: rest => wfStep st op && wfOps (applyOp st op) rest

/-- The session-set invariant: available and active are disjoint, the
available list is duplicate-free, and every tracked session id is below the
fresh-id counter. -/
def SessionInv (st : AdapterState) : Prop :=
  (∀ s ∈ st.availableSessions, s ∉ st.activeSessions) ∧
    st.availableSessions.Nodup ∧
    (∀ s ∈ st.availableSessions, s < st.nextId) ∧
    (∀ s ∈ st.activeSessions, s < st.nextId)

/-- A freshly constructed adapter (pool bounds 1..5, nothing tracked). -/
def adapterInit : AdapterState :=
  ⟨[], [], [], 0, false, 1, 5⟩

/-! ## Connection-pool registry (`connection-manager.ts`)

`createPool` is modelled together with the JavaScript event-loop behaviour it
actually has: when a pool already exists for the key, `closePool(dbKey)` is
invoked *without* `await`, so only its synchronous prefix (stopping the
monitor) runs immediately; the deletion of the registry entries and the old
pool's destruction are a deferred continuation that runs once
`pool.destroy()` settles. For traditional clients there is no suspension
point between the `closePool` call and the registration of the new pool, so
the continuation can only run at the first `await` after registration
(`lateClose = false`) or after `createPool` has returned (`lateClose =
true`). -/

/-- The registry's per-pool statistics record. -/
structure PoolStatsM where
  created : Nat
  totalConnections : Nat
  activeConnections : Nat
  idleConnections : Nat
  pendingAcquisitions : Nat
  queryCount : Nat
  lastQuery : Option String
  errors : Nat
  lastError : Option String
  deriving DecidableEq

/-- The initial statistics seeded at pool creation. -/
def initialPoolStats (now : Nat) : PoolStatsM :=
  ⟨now, 0, 0, 0, 0, 0, none, 0, none⟩

/-- Registry state: pools are identified by fresh numeric ids (the source
holds object references); `destroyedPools` records which pool instances have
had `destroy()` called. -/
structure CMState where
  pools : String → Option Nat
  poolConfigs : String → Option Unit
  poolStats : String → Option PoolStatsM
  monitoring : String → Option Unit
  destroyedPools : List Nat
  nextPoolId : Nat

/-- Errors thrown by `createPool` after cleanup. -/
inductive CMError where
  | connectFailed
  | writePermissionDetected
  deriving DecidableEq

/-- Environment of one `createPool` call: connectivity-probe outcome, the
permission verifier's verdict, the wall clock, and whether the old pool's
unawaited `destroy()` settles only after `createPool` returns. -/
structure CreatePoolEnv where
  isDatabricks : Bool
  connectOk : Bool
  readOnly : Bool
  now : Nat
  lateClose : Bool
  deriving DecidableEq

/-- `Map.set`. -/
def mapSet {α : Type} (m : String → Option α) (key : String) (v : α) :
    String → Option α :=
  fun k => if k = key then some v else m k

/-- `Map.delete`. -/
def mapDelete {α : Type} (m : String → Option α) (key : String) :
    String → Option α :=
  fun k => if k = key then none else m k

/-- The synchronous prefix of `closePool`: stop and drop the monitor. -/
def closePoolSyncPart (st : CMState) (dbKey : String) : CMState :=
  { st with monitoring := mapDelete st.monitoring dbKey }

/-- The deferred continuation of `closePool`, run when `pool.destroy()`
settles: the destroy completes and the registry entries for the key are
deleted. -/
def closePoolDeferredPart (st : CMState) (dbKey : String) (oldPid : Nat) : CMState :=
  { st with pools := mapDelete st.pools dbKey, poolConfigs := mapDelete st.poolConfigs dbKey, poolStats := mapDelete st.poolStats dbKey, destroyedPools := oldPid :: st.destroyedPools }

/-- The failure cleanup inside `createPool`: destroy the just-built pool and
delete its registry entries. -/
def createPoolCleanup (st : CMState) (dbKey : String) (pid : Nat) : CMState :=
  { st with pools := mapDelete st.pools dbKey, poolConfigs := mapDelete st.poolConfigs dbKey, poolStats := mapDelete st.poolStats dbKey, destroyedPools := pid :: st.destroyedPools }

/-- `ConnectionManager.createPool`, returning the registry state at the
moment `createPool` settles together with its result. Mirrors the source
order: unawaited `closePool` (synchronous prefix only), pool-config save,
instance construction, registration and stats seeding, then the `SELECT 1`
probe — where the deferred `closePool` continuation lands when `lateClose` is
false — then the permission verifier with its hard-rejection cleanup, then
monitor start (skipped when the pool config entry has vanished) and the
`pool:created` event. -/
def createPool (env : CreatePoolEnv) (dbKey : String) (st : CMState) :
    CMState × Except CMError Nat :=
  let oldPid := st.pools dbKey
  let stA := match oldPid with
    | some _ => closePoolSyncPart st dbKey
    | none => st
  let pid := stA.nextPoolId
  let stB := { stA with poolConfigs := mapSet stA.poolConfigs dbKey (), pools := mapSet stA.pools dbKey pid, poolStats := mapSet stA.poolStats dbKey (initialPoolStats env.now), nextPoolId := pid + 1 }
  let stC := if oldPid.isSome && !env.lateClose then
      closePoolDeferredPart stB dbKey (oldPid.getD 0)
    else stB
  if !env.connectOk then
    (createPoolCleanup stC dbKey pid, .error .connectFailed)
  else if !env.readOnly then
    (createPoolCleanup stC dbKey pid, .error .writePermissionDetected)
  else
    let stD := match stC.poolConfigs dbKey with
      | some _ => { stC with monitoring := mapSet stC.monitoring dbKey () }
      | none => stC
    (stD, .ok pid)

/-- `ConnectionManager.getPool`: `this.pools.get(dbKey) || null`. -/
def getPool (st : CMState) (dbKey : String) : Option Nat :=
  st.pools dbKey

/-- `ConnectionManager.getAllPoolStats`, as the per-key entry view. -/
def getAllPoolStats (st : CMState) : String → Option PoolStatsM :=
  st.poolStats

/-- A registry already holding a live pool (id 0) under key `db`. -/
def sampleRegistry : CMState where
  pools := fun k => if k = "db" then some 0 else none
  poolConfigs := fun k => if k = "db" then some () else none
  poolStats := fun k => if k = "db" then some (initialPoolStats 0) else none
  monitoring := fun k => if k = "db" then some () else none
  destroyedPools := []
  nextPoolId := 1

/-- An empty registry. -/
def emptyRegistry : CMState where
  pools := fun _ => none
  poolConfigs := fun _ => none
  poolStats := fun _ => none
  monitoring := fun _ => none
  destroyedPools := []
  nextPoolId := 0

end DbMcp

namespace DbMcp

/-- C1: for every combination of the three server flags and every list of grant
rows, the traditional-RDBMS `isStrictlyReadOnlySession` agrees with the spec's
two-branch truth table evaluated on the joined, uppercased grants string:
storage-engine read-only forces `true`; a read-only node yields `true` iff the
grants lack SUPER and ALL PRIVILEGES; a writable node yields `true` iff the
grants contain none of INSERT/UPDATE/DELETE/CREATE/DROP/ALTER/ALL PRIVILEGES
and no EXECUTE. -/
theorem mysql_readonly_matches_truth_table
    (innodbReadOnly readOnly superReadOnly : String) (grantRows : List String) :
    isStrictlyReadOnlySession innodbReadOnly readOnly superReadOnly grantRows =
      specReadOnlyTruthTable innodbReadOnly readOnly superReadOnly
        (grantsString grantRows) := by
  unfold isStrictlyReadOnlySession specReadOnlyTruthTable hasSuper
    hasWritePrivileges hasExecute
  rfl

/-- C2: for every Databricks session whose grant enumeration succeeds,
`isDatabricksReadOnlySession` returns `false` iff some returned grant's action
token matches the write-permission set; in particular grants carrying only
EXECUTE or SELECT tokens, or an empty grant list, yield `true`. -/
theorem databricks_grants_classification
    (s : DbxSession) (cc : Option String) (grants : List Grant)
    (hUser : s.userQueryOk = true)
    (hCat : s.catalogQuery = .ok cc)
    (hEnum : enumerateGrants s cc = .ok grants) :
    (isDatabricksReadOnlySession s = false ↔ ∃ g ∈ grants, isWriteAction g = true) ∧
      ((∀ g ∈ grants, strToUpper (grantAction g) = "EXECUTE" ∨ strToUpper (grantAction g) = "SELECT") →
        isDatabricksReadOnlySession s = true) := by
  have hmain : isDatabricksReadOnlySession s = !(grants.any isWriteAction) := by
    simp [isDatabricksReadOnlySession, hUser, hCat, hEnum]
  constructor
  · rw [hmain]
    simp [List.any_eq_true]
  · intro hall
    rw [hmain]
    simp only [Bool.not_eq_true', List.any_eq_false]
    intro g hg
    have hro : ∀ u : String, u = "EXECUTE" ∨ u = "SELECT" →
        writePermissions.any (fun perm => strContains u perm) = false := by
      rintro u (rfl | rfl) <;> decide
    have := hro _ (hall g hg)
    simpa [isWriteAction] using this

/-- Witness for C2: a session granting MODIFY on the catalog is classified as
writable. -/
theorem databricks_grants_classification_witness :
    isDatabricksReadOnlySession sampleWritableSession = false := by
  have h := databricks_grants_classification sampleWritableSession (some "main")
    [⟨some "MODIFY", none, none, none⟩] (by rfl) (by rfl) (by rfl)
  exact h.1.mpr ⟨⟨some "MODIFY", none, none, none⟩, by simp, by decide⟩

/-- C5: for every Databricks session where the grant enumeration itself fails,
`isDatabricksReadOnlySession` falls back to the temporary-view probe: a
successful view creation yields `false`, and any creation failure — whether or
not its message carries a permission-denied signature — yields `true`. -/
theorem databricks_probe_fallback
    (s : DbxSession) (cc : Option String)
    (hUser : s.userQueryOk = true)
    (hCat : s.catalogQuery = .ok cc)
    (hEnum : enumerateGrants s cc = .error ()) :
    (s.createTempView = .ok () → isDatabricksReadOnlySession s = false) ∧
      (∀ msg, s.createTempView = .error msg → isDatabricksReadOnlySession s = true) := by
  have hmain : isDatabricksReadOnlySession s = writeProbe s := by
    simp [isDatabricksReadOnlySession, hUser, hCat, hEnum]
  constructor
  · intro hok
    rw [hmain]
    simp [writeProbe, hok]
  · intro msg herr
    rw [hmain]
    simp only [writeProbe, herr]
    split <;> rfl

/-- Witness for C5: with grant enumeration failing and the probe view
creation succeeding, the session is classified as writable. -/
theorem databricks_probe_fallback_witness :
    isDatabricksReadOnlySession sampleProbeSession = false := by
  have h := databricks_probe_fallback sampleProbeSession (some "main")
    (by rfl) (by rfl) (by rfl)
  exact h.1 rfl

/-- C7: `withTimeout` races the operation against the effective budget. If the
operation has not settled within the budget, the result is a typed timeout
rejection carrying the configured duration — `ConnectionTimeoutError` for the
`connectionAcquisition` kind, `DatabaseTimeoutError` carrying the kind for all
other kinds — regardless of the operation's eventual outcome; if the operation
settles first, its outcome (value or error) is propagated unchanged. -/
theorem withTimeout_races_operation {α : Type} (ts : TimeoutState)
    (timeoutType : TimeoutType) (customTimeout : Option Nat) (settleAt : Nat)
    (outcome : Except String α) :
    (effectiveTimeout ts timeoutType customTimeout ≤ settleAt →
      withTimeout ts timeoutType customTimeout settleAt outcome =
        .timedOut
          (if timeoutType = .connectionAcquisition then
            .connectionTimeout (effectiveTimeout ts timeoutType customTimeout)
          else
            .databaseTimeout timeoutType (effectiveTimeout ts timeoutType customTimeout))) ∧
      (settleAt < effectiveTimeout ts timeoutType customTimeout →
        withTimeout ts timeoutType customTimeout settleAt outcome =
          match outcome with
          | .ok a => .ok a
          | .error e => .opErr e) := by
  constructor
  · intro h
    unfold withTimeout
    simp [Nat.not_lt.mpr h]
  · intro h
    unfold withTimeout
    simp [h]

/-- Witness for C7: a connection acquisition settling at the default 5000ms
budget is rejected with a `ConnectionTimeoutError` carrying 5000, while one
settling at 4999ms propagates its value. -/
theorem withTimeout_races_operation_witness :
    withTimeout initialTimeouts .connectionAcquisition none 5000 (Except.ok 7) =
        .timedOut (.connectionTimeout 5000) ∧
      withTimeout initialTimeouts .connectionAcquisition none 4999 (Except.ok 7) =
        TOResult.ok 7 := by
  constructor
  · have h := (withTimeout_races_operation initialTimeouts .connectionAcquisition none 5000
      (Except.ok 7)).1 (by decide)
    simpa using h
  · have h := (withTimeout_races_operation initialTimeouts .connectionAcquisition none 4999
      (Except.ok 7)).2 (by decide)
    simpa using h

/-- C9: `getTimeout` can never return 0: a stored 0 (e.g. set via
`setTimeout(kind, 0)`) is falsy and falls back to the built-in default for the
kind; likewise `withTimeout` treats a `customTimeout` of 0 as absent and uses
the kind's configured budget, so a zero budget can never take effect. -/
theorem getTimeout_never_zero (ts : TimeoutState) (timeoutType : TimeoutType) :
    getTimeout ts timeoutType ≠ 0 ∧
      getTimeout (setTimeoutKind ts timeoutType 0) timeoutType =
        DEFAULT_TIMEOUTS timeoutType ∧
      effectiveTimeout ts timeoutType (some 0) = getTimeout ts timeoutType := by
  have hdef : DEFAULT_TIMEOUTS timeoutType ≠ 0 := by
    cases timeoutType <;> decide
  refine ⟨?_, ?_, ?_⟩
  · unfold getTimeout jsOrNat
    by_cases h : ts timeoutType = 0
    · simp [h, hdef]
    · simp [h]
  · unfold getTimeout setTimeoutKind jsOrNat
    simp [hdef]
  · unfold effectiveTimeout jsOrNat
    simp

/-! ### Circuit-breaker helper lemmas -/

/-- Reading the breaker map at a freshly updated key. -/
theorem getBreaker_updateMap (m : CBMap) (dbKey : String) (b : BreakerState) (now : Nat) :
    getBreaker (updateMap m dbKey b) dbKey now = b := by
  simp [getBreaker, updateMap]

/-- Keyed consecutive failures act as the one-record fold at the key. -/
theorem recordFailures_key (cfg : CircuitBreakerConfig) (dbKey : String) :
    ∀ (times : List Nat) (m : CBMap) (b : BreakerState), m dbKey = some b →
      (recordFailures cfg m dbKey times) dbKey =
        some (times.foldl (recordFailureB cfg) b) := by
  intro times
  induction times with
  | nil => intro m b hb; simpa [recordFailures] using hb
  | cons t rest ih =>
    intro m b hb
    have hstep : (recordFailure cfg m dbKey t) dbKey = some (recordFailureB cfg b t) := by
      simp [recordFailure, updateMap, getBreaker, hb]
    have := ih (recordFailure cfg m dbKey t) (recordFailureB cfg b t) hstep
    simpa [recordFailures, List.foldl_cons] using this

/-- Keyed consecutive successes act as the one-record fold at the key. -/
theorem recordSuccesses_key (cfg : CircuitBreakerConfig) (dbKey : String) :
    ∀ (times : List Nat) (m : CBMap) (b : BreakerState), m dbKey = some b →
      (recordSuccesses cfg m dbKey times) dbKey =
        some (times.foldl (recordSuccessB cfg) b) := by
  intro times
  induction times with
  | nil => intro m b hb; simpa [recordSuccesses] using hb
  | cons t rest ih =>
    intro m b hb
    have hstep : (recordSuccess cfg m dbKey t) dbKey = some (recordSuccessB cfg b t) := by
      simp [recordSuccess, updateMap, getBreaker, hb]
    have := ih (recordSuccess cfg m dbKey t) (recordSuccessB cfg b t) hstep
    simpa [recordSuccesses, List.foldl_cons] using this

/-- A single failure on a CLOSED record strictly below the threshold. -/
theorem recordFailureB_closed_below (cfg : CircuitBreakerConfig) (b : BreakerState)
    (t : Nat) (hb : b.state = .CLOSED) (hlt : b.failureCount + 1 < cfg.failureThreshold) :
    recordFailureB cfg b t =
      { b with lastFailureTime := some t, failureCount := b.failureCount + 1 } := by
  unfold recordFailureB
  simp [hb, Nat.not_le.mpr hlt]

/-- Folding failures over a CLOSED record below the threshold keeps it CLOSED
and accumulates the count. -/
theorem foldFailB_closed (cfg : CircuitBreakerConfig) :
    ∀ (times : List Nat) (b : BreakerState), b.state = .CLOSED →
      b.failureCount + times.length < cfg.failureThreshold →
      (times.foldl (recordFailureB cfg) b).state = .CLOSED ∧
        (times.foldl (recordFailureB cfg) b).failureCount =
          b.failureCount + times.length ∧
        (times.foldl (recordFailureB cfg) b).lastStateChange = b.lastStateChange := by
  intro times
  induction times with
  | nil => intro b hb _; exact ⟨hb, rfl, rfl⟩
  | cons t rest ih =>
    intro b hb hlt
    have hcnt : b.failureCount + 1 < cfg.failureThreshold := by
      simp only [List.length_cons] at hlt
      omega
    rw [List.foldl_cons, recordFailureB_closed_below cfg b t hb hcnt]
    have hlt2 :
        ({ b with lastFailureTime := some t, failureCount := b.failureCount + 1 } : BreakerState).failureCount
          + rest.length < cfg.failureThreshold := by
      show b.failureCount + 1 + rest.length < cfg.failureThreshold
      simp only [List.length_cons] at hlt
      omega
    have hres :=
      ih { b with lastFailureTime := some t, failureCount := b.failureCount + 1 } hb hlt2
    refine ⟨hres.1, ?_, hres.2.2⟩
    rw [hres.2.1]
    show b.failureCount + 1 + rest.length = b.failureCount + (t :: rest).length
    simp only [List.length_cons]
    omega

/-- A single success on a HALF_OPEN record strictly below the success
threshold only bumps the success counter. -/
theorem recordSuccessB_halfOpen_below (cfg : CircuitBreakerConfig) (b : BreakerState)
    (t : Nat) (hb : b.state = .HALF_OPEN)
    (hlt : b.successCount + 1 < cfg.halfOpenSuccessThreshold) :
    recordSuccessB cfg b t = { b with successCount := b.successCount + 1 } := by
  unfold recordSuccessB
  simp [hb, Nat.not_le.mpr hlt]

/-- Folding successes over a HALF_OPEN record below the success threshold
keeps it HALF_OPEN and accumulates the success count. -/
theorem foldSuccB_halfOpen (cfg : CircuitBreakerConfig) :
    ∀ (times : List Nat) (b : BreakerState), b.state = .HALF_OPEN →
      b.successCount + times.length < cfg.halfOpenSuccessThreshold →
      (times.foldl (recordSuccessB cfg) b).state = .HALF_OPEN ∧
        (times.foldl (recordSuccessB cfg) b).successCount =
          b.successCount + times.length := by
  intro times
  induction times with
  | nil => intro b hb _; exact ⟨hb, rfl⟩
  | cons t rest ih =>
    intro b hb hlt
    have hcnt : b.successCount + 1 < cfg.halfOpenSuccessThreshold := by
      simp only [List.length_cons] at hlt
      omega
    rw [List.foldl_cons, recordSuccessB_halfOpen_below cfg b t hb hcnt]
    have hlt2 : ({ b with successCount := b.successCount + 1 } : BreakerState).successCount
        + rest.length < cfg.halfOpenSuccessThreshold := by
      show b.successCount + 1 + rest.length < cfg.halfOpenSuccessThreshold
      simp only [List.length_cons] at hlt
      omega
    have hres := ih { b with successCount := b.successCount + 1 } hb hlt2
    refine ⟨hres.1, ?_⟩
    rw [hres.2]
    show b.successCount + 1 + rest.length = b.successCount + (t :: rest).length
    simp only [List.length_cons]
    omega

/-- Folding successes over a HALF_OPEN record until the success threshold is
reached closes the breaker and resets both counters. -/
theorem foldSuccB_close (cfg : CircuitBreakerConfig) :
    ∀ (times : List Nat) (b : BreakerState), b.state = .HALF_OPEN → times ≠ [] →
      b.successCount + times.length = cfg.halfOpenSuccessThreshold →
      (times.foldl (recordSuccessB cfg) b).state = .CLOSED ∧
        (times.foldl (recordSuccessB cfg) b).failureCount = 0 ∧
        (times.foldl (recordSuccessB cfg) b).successCount = 0 := by
  intro times
  induction times with
  | nil => intro b _ hne _; exact absurd rfl hne
  | cons t rest ih =>
    intro b hb _ hsum
    rcases rest with _ | ⟨t2, rest2⟩
    · have hth : cfg.halfOpenSuccessThreshold ≤ b.successCount + 1 := by
        simp only [List.length_cons, List.length_nil] at hsum
        omega
      have hstep : recordSuccessB cfg b t =
          closeB { b with successCount := b.successCount + 1 } t := by
        unfold recordSuccessB
        simp [hb, hth]
      rw [List.foldl_cons, hstep, List.foldl_nil]
      unfold closeB
      simp [hb]
    · have hcnt : b.successCount + 1 < cfg.halfOpenSuccessThreshold := by
        simp only [List.length_cons] at hsum
        omega
      rw [List.foldl_cons, recordSuccessB_halfOpen_below cfg b t hb hcnt]
      have hsum2 : ({ b with successCount := b.successCount + 1 } : BreakerState).successCount
          + (t2 :: rest2).length = cfg.halfOpenSuccessThreshold := by
        show b.successCount + 1 + (t2 :: rest2).length = cfg.halfOpenSuccessThreshold
        simp only [List.length_cons] at hsum ⊢
        omega
      exact ih { b with successCount := b.successCount + 1 } hb (by simp) hsum2

end DbMcp

namespace DbMcp

/-- Reading the breaker map at a key known to hold a record. -/
theorem getBreaker_some (m : CBMap) (dbKey : String) (b : BreakerState) (now : Nat)
    (h : m dbKey = some b) : getBreaker m dbKey now = b := by
  simp [getBreaker, h]

/-- The failure that reaches the threshold on a CLOSED record opens it. -/
theorem recordFailureB_closed_hit (cfg : CircuitBreakerConfig) (b : BreakerState)
    (t : Nat) (hb : b.state = .CLOSED) (hth : cfg.failureThreshold ≤ b.failureCount + 1) :
    recordFailureB cfg b t =
      { b with state := .OPEN, lastFailureTime := some t, failureCount := b.failureCount + 1, successCount := 0, lastStateChange := t } := by
  unfold recordFailureB openB
  simp [hb, hth]

/-- A failure on a HALF_OPEN record reopens it. -/
theorem recordFailureB_halfOpen (cfg : CircuitBreakerConfig) (b : BreakerState)
    (t : Nat) (hb : b.state = .HALF_OPEN) :
    recordFailureB cfg b t =
      { b with state := .OPEN, lastFailureTime := some t, successCount := 0, lastStateChange := t } := by
  unfold recordFailureB openB
  simp [hb]

end DbMcp

namespace DbMcp

/-- C4: for every logical database key the circuit breaker follows the spec's
transitions. A lazily created breaker starts CLOSED and allowed; consecutive
`recordFailure` calls strictly below `failureThreshold` (default 5) keep it
CLOSED and allowed; the failure reaching the threshold opens it, after which
`isAllowed` returns `false` until `resetTimeout` (default 30000ms) has elapsed
since entering OPEN, and the next `isAllowed` call after that returns `true`
and moves the breaker to HALF_OPEN; in HALF_OPEN a single `recordFailure`
returns it to OPEN, while consecutive `recordSuccess` calls reaching
`halfOpenSuccessThreshold` (default 2) return it to CLOSED with both counters
reset. -/
theorem circuit_breaker_lifecycle
    (cfg : CircuitBreakerConfig) (m : CBMap) (dbKey : String) (b : BreakerState) :
    (m dbKey = none → ∀ now, (getBreaker m dbKey now).state = .CLOSED ∧
      (isAllowed cfg m dbKey now).1 = true) ∧
    (m dbKey = some b → b.state = .CLOSED →
      ∀ times : List Nat, b.failureCount + times.length < cfg.failureThreshold →
        (getBreaker (recordFailures cfg m dbKey times) dbKey 0).state = .CLOSED ∧
        (getBreaker (recordFailures cfg m dbKey times) dbKey 0).failureCount =
          b.failureCount + times.length ∧
        ∀ now, (isAllowed cfg (recordFailures cfg m dbKey times) dbKey now).1 = true) ∧
    (m dbKey = some b → b.state = .CLOSED →
      ∀ (times : List Nat) (t : Nat),
        b.failureCount + times.length + 1 = cfg.failureThreshold →
        (getBreaker (recordFailures cfg m dbKey (times ++ [t])) dbKey 0).state = .OPEN ∧
        (getBreaker (recordFailures cfg m dbKey (times ++ [t])) dbKey 0).lastStateChange = t ∧
        (∀ now, t ≤ now → now < t + cfg.resetTimeout →
          (isAllowed cfg (recordFailures cfg m dbKey (times ++ [t])) dbKey now).1 = false) ∧
        (∀ now, t + cfg.resetTimeout ≤ now →
          (isAllowed cfg (recordFailures cfg m dbKey (times ++ [t])) dbKey now).1 = true ∧
          (getBreaker (isAllowed cfg (recordFailures cfg m dbKey (times ++ [t])) dbKey now).2
            dbKey 0).state = .HALF_OPEN)) ∧
    (m dbKey = some b → b.state = .HALF_OPEN → ∀ t,
      (getBreaker (recordFailure cfg m dbKey t) dbKey 0).state = .OPEN ∧
      (getBreaker (recordFailure cfg m dbKey t) dbKey 0).lastStateChange = t) ∧
    (m dbKey = some b → b.state = .HALF_OPEN →
      (∀ times : List Nat, b.successCount + times.length < cfg.halfOpenSuccessThreshold →
        (getBreaker (recordSuccesses cfg m dbKey times) dbKey 0).state = .HALF_OPEN ∧
        (getBreaker (recordSuccesses cfg m dbKey times) dbKey 0).successCount =
          b.successCount + times.length) ∧
      (∀ times : List Nat, times ≠ [] →
          b.successCount + times.length = cfg.halfOpenSuccessThreshold →
        (getBreaker (recordSuccesses cfg m dbKey times) dbKey 0).state = .CLOSED ∧
        (getBreaker (recordSuccesses cfg m dbKey times) dbKey 0).failureCount = 0 ∧
        (getBreaker (recordSuccesses cfg m dbKey times) dbKey 0).successCount = 0)) := by
  refine ⟨?_, ?_, ?_, ?_, ?_⟩
  · intro h now
    constructor
    · simp [getBreaker, h, freshBreaker]
    · simp [isAllowed, isAllowedB, getBreaker, h, freshBreaker]
  · intro hm hb times hlt
    have hkey := recordFailures_key cfg dbKey times m b hm
    have hfold := foldFailB_closed cfg times b hb hlt
    have hget : ∀ now, getBreaker (recordFailures cfg m dbKey times) dbKey now =
        times.foldl (recordFailureB cfg) b := fun now => getBreaker_some _ _ _ now hkey
    refine ⟨by rw [hget]; exact hfold.1, by rw [hget]; exact hfold.2.1, ?_⟩
    intro now
    simp [isAllowed, isAllowedB, hget now, hfold.1]
  · intro hm hb times t hth
    have hlt : b.failureCount + times.length < cfg.failureThreshold := by omega
    have hfold := foldFailB_closed cfg times b hb hlt
    set bf := times.foldl (recordFailureB cfg) b with hbf
    have hhit : cfg.failureThreshold ≤ bf.failureCount + 1 := by
      rw [hfold.2.1]; omega
    have hkey := recordFailures_key cfg dbKey (times ++ [t]) m b hm
    have hfold2 : (times ++ [t]).foldl (recordFailureB cfg) b =
        recordFailureB cfg bf t := by
      rw [List.foldl_append, List.foldl_cons, List.foldl_nil]
    have hopen := recordFailureB_closed_hit cfg bf t hfold.1 hhit
    have hget : ∀ now, getBreaker (recordFailures cfg m dbKey (times ++ [t])) dbKey now =
        recordFailureB cfg bf t := by
      intro now
      apply getBreaker_some
      rw [hkey, hfold2]
    refine ⟨by rw [hget 0, hopen], by rw [hget 0, hopen], ?_, ?_⟩
    · intro now hle hlt2
      have hsub : ¬ cfg.resetTimeout ≤ now - t := by omega
      simp [isAllowed, isAllowedB, hget now, hopen, hsub]
    · intro now hge
      have hsub : cfg.resetTimeout ≤ now - t := by omega
      constructor
      · simp [isAllowed, isAllowedB, hget now, hopen, hsub]
      · simp [isAllowed, isAllowedB, hget now, hopen, hsub, getBreaker_updateMap, halfOpenB]
  · intro hm hb t
    have hget : getBreaker (recordFailure cfg m dbKey t) dbKey 0 =
        recordFailureB cfg b t := by
      apply getBreaker_some
      simp [recordFailure, updateMap, getBreaker, hm]
    rw [hget, recordFailureB_halfOpen cfg b t hb]
    exact ⟨rfl, rfl⟩
  · intro hm hb
    constructor
    · intro times hlt
      have hkey := recordSuccesses_key cfg dbKey times m b hm
      have hfold := foldSuccB_halfOpen cfg times b hb hlt
      have hget : getBreaker (recordSuccesses cfg m dbKey times) dbKey 0 =
          times.foldl (recordSuccessB cfg) b := getBreaker_some _ _ _ 0 hkey
      exact ⟨by rw [hget]; exact hfold.1, by rw [hget]; exact hfold.2⟩
    · intro times hne hsum
      have hkey := recordSuccesses_key cfg dbKey times m b hm
      have hfold := foldSuccB_close cfg times b hb hne hsum
      have hget : getBreaker (recordSuccesses cfg m dbKey times) dbKey 0 =
          times.foldl (recordSuccessB cfg) b := getBreaker_some _ _ _ 0 hkey
      exact ⟨by rw [hget]; exact hfold.1, by rw [hget]; exact hfold.2.1,
        by rw [hget]; exact hfold.2.2⟩

end DbMcp

namespace DbMcp

/-- Witness for C4: with the default configuration, five consecutive failures
open the breaker (rejected at time 100), and once 30000ms have elapsed since
opening at time 5, the next check is allowed again. -/
theorem circuit_breaker_lifecycle_witness :
    (isAllowed defaultBreakerConfig
      (recordFailures defaultBreakerConfig sampleBreakerMap "db" [1, 2, 3, 4, 5]) "db" 100).1
        = false ∧
      (isAllowed defaultBreakerConfig
        (recordFailures defaultBreakerConfig sampleBreakerMap "db" [1, 2, 3, 4, 5]) "db" 30005).1
          = true := by
  have h := (circuit_breaker_lifecycle defaultBreakerConfig sampleBreakerMap "db"
    (freshBreaker 0)).2.2.1 (by rfl) (by rfl) [1, 2, 3, 4] 5 (by rfl)
  constructor
  · have hx := h.2.2.1 100 (by omega) (by decide)
    simpa using hx
  · have hx := (h.2.2.2 30005 (by decide)).1
    simpa using hx

end DbMcp

namespace DbMcp

/-- Membership in a JS-set add. -/
theorem mem_setAdd {l : List Nat} {s x : Nat} : x ∈ setAdd l s ↔ x ∈ l ∨ x = s := by
  by_cases h : s ∈ l
  · simp only [setAdd, if_pos h]
    constructor
    · exact Or.inl
    · rintro (hx | rfl)
      · exact hx
      · exact h
  · simp [setAdd, if_neg h]

/-- Membership in a JS-set delete. -/
theorem mem_setDelete {l : List Nat} {s x : Nat} : x ∈ setDelete l s ↔ x ∈ l ∧ x ≠ s := by
  simp [setDelete]

/-- Invalidation only shrinks the active set. -/
theorem invalidate_active_sub (st : AdapterState) (x s : Nat)
    (h : x ∈ (invalidateSession st s).activeSessions) : x ∈ st.activeSessions :=
  (mem_setDelete.mp h).1

/-- The validation fold inside `cleanupAvailable` only shrinks the active set
and leaves the counter, queue, flags and bounds alone. -/
theorem cleanupFold_facts (validf : Nat → Bool) :
    ∀ (L : List Nat) (st : AdapterState),
      (∀ x, x ∈ (L.foldl (fun acc s => if validf s then acc else invalidateSession acc s) st).activeSessions →
          x ∈ st.activeSessions) ∧
        (L.foldl (fun acc s => if validf s then acc else invalidateSession acc s) st).nextId = st.nextId ∧
        (L.foldl (fun acc s => if validf s then acc else invalidateSession acc s) st).pendingRequests = st.pendingRequests ∧
        (L.foldl (fun acc s => if validf s then acc else invalidateSession acc s) st).isDestroyed = st.isDestroyed ∧
        (L.foldl (fun acc s => if validf s then acc else invalidateSession acc s) st).maxSize = st.maxSize := by
  intro L
  induction L with
  | nil => intro st; exact ⟨fun x h => h, rfl, rfl, rfl, rfl⟩
  | cons a rest ih =>
    intro st
    rw [List.foldl_cons]
    by_cases hv : validf a
    · rw [if_pos hv]
      exact ih st
    · rw [if_neg hv]
      have h2 := ih (invalidateSession st a)
      exact ⟨fun x hx => invalidate_active_sub st x a (h2.1 x hx),
        h2.2.1, h2.2.2.1, h2.2.2.2.1, h2.2.2.2.2⟩

/-- The invariant survives the validation sweep. -/
theorem sessionInv_cleanup (validf : Nat → Bool) (st : AdapterState)
    (h : SessionInv st) : SessionInv (cleanupAvailable validf st) := by
  obtain ⟨hdisj, hnodup, hbav, hbac⟩ := h
  have hfacts := cleanupFold_facts validf st.availableSessions st
  have hav : (cleanupAvailable validf st).availableSessions =
      st.availableSessions.filter validf := rfl
  refine ⟨?_, ?_, ?_, ?_⟩
  · intro s hs hact
    rw [hav] at hs
    exact hdisj s (List.mem_filter.mp hs).1 (hfacts.1 s hact)
  · rw [hav]
    exact hnodup.filter validf
  · intro s hs
    rw [hav] at hs
    have hnext : (cleanupAvailable validf st).nextId = st.nextId := hfacts.2.1
    rw [hnext]
    exact hbav s (List.mem_filter.mp hs).1
  · intro s hs
    have hnext : (cleanupAvailable validf st).nextId = st.nextId := hfacts.2.1
    rw [hnext]
    exact hbac s (hfacts.1 s hs)

/-- The post-sweep acquire body preserves the invariant, and a session it
hands out is active and not available at the moment of return. -/
theorem acquireFrom_inv (st1 : AdapterState) (h : SessionInv st1) :
    SessionInv (acquireFrom st1).2 ∧ ∀ s, (acquireFrom st1).1 = some s →
      s ∈ (acquireFrom st1).2.activeSessions ∧
        s ∉ (acquireFrom st1).2.availableSessions := by
  obtain ⟨hdisj, hnodup, hbav, hbac⟩ := h
  cases hlast : st1.availableSessions.getLast? with
  | some s0 =>
    have hsplit : st1.availableSessions.dropLast ++ [s0] = st1.availableSessions :=
      List.dropLast_append_getLast? s0 hlast
    have hnd : (st1.availableSessions.dropLast ++ [s0]).Nodup := by
      rw [hsplit]; exact hnodup
    have hnotin : s0 ∉ st1.availableSessions.dropLast := by
      have hdisj2 := (List.nodup_append.mp hnd).2.2
      intro hmem
      exact hdisj2 hmem (List.mem_singleton.mpr rfl)
    have hs0mem : s0 ∈ st1.availableSessions := by
      rw [← hsplit]
      exact List.mem_append_right _ (List.mem_singleton.mpr rfl)
    unfold acquireFrom
    simp only [hlast]
    constructor
    · refine ⟨?_, ?_, ?_, ?_⟩
      · intro x hx hact
        have hxav : x ∈ st1.availableSessions := List.mem_of_mem_dropLast hx
        rcases mem_setAdd.mp hact with hxa | rfl
        · exact hdisj x hxav hxa
        · exact hnotin hx
      · exact (List.nodup_append.mp hnd).1
      · intro x hx
        exact hbav x (List.mem_of_mem_dropLast hx)
      · intro x hx
        rcases mem_setAdd.mp hx with hxa | rfl
        · exact hbac x hxa
        · exact hbav x hs0mem
    · intro s hs
      injection hs with hs
      subst hs
      exact ⟨mem_setAdd.mpr (Or.inr rfl), hnotin⟩
  | none =>
    have hempt : st1.availableSessions = [] :=
      List.getLast?_eq_none_iff.mp hlast
    unfold acquireFrom
    simp only [hlast]
    by_cases hsz : st1.sessions.length < st1.maxSize
    · rw [if_pos hsz]
      constructor
      · refine ⟨?_, ?_, ?_, ?_⟩
        · intro x hx
          rw [hempt] at hx
          simp at hx
        · rw [hempt]
          simp
        · intro x hx
          rw [hempt] at hx
          simp at hx
        · intro x hx
          rcases mem_setAdd.mp hx with hxa | rfl
          · exact Nat.lt_succ_of_lt (hbac x hxa)
          · exact Nat.lt_succ_self _
      · intro s hs
        injection hs with hs
        subst hs
        refine ⟨mem_setAdd.mpr (Or.inr rfl), ?_⟩
        rw [hempt]
        simp
    · rw [if_neg hsz]
      constructor
      · exact ⟨hdisj, hnodup, hbav, hbac⟩
      · intro s hs
        exact absurd hs (by simp)

/-- A successful acquire preserves the invariant, and a session it hands out
is active and not available at the moment of return. -/
theorem sessionInv_acquire (validf : Nat → Bool) (st : AdapterState)
    (h : SessionInv st) (r : Option Nat) (st' : AdapterState)
    (hacq : acquireSession validf st = .ok (r, st')) :
    SessionInv st' ∧ ∀ s, r = some s →
      s ∈ st'.activeSessions ∧ s ∉ st'.availableSessions := by
  have h1 := sessionInv_cleanup validf st h
  have hbody := acquireFrom_inv (cleanupAvailable validf st) h1
  unfold acquireSession at hacq
  by_cases hdes : st.isDestroyed
  · rw [if_pos hdes] at hacq
    exact absurd hacq (by simp)
  · rw [if_neg hdes] at hacq
    injection hacq with hpair
    have hr : (acquireFrom (cleanupAvailable validf st)).1 = r := by rw [hpair]
    have hst : (acquireFrom (cleanupAvailable validf st)).2 = st' := by rw [hpair]
    rw [← hr, ← hst]
    exact hbody

/-- A disciplined release (of a currently active session) preserves the
invariant. -/
theorem sessionInv_release (st : AdapterState) (s : Nat)
    (h : SessionInv st) (hs : s ∈ st.activeSessions) :
    SessionInv (releaseSession st s) := by
  obtain ⟨hdisj, hnodup, hbav, hbac⟩ := h
  unfold releaseSession
  by_cases hp : 0 < st.pendingRequests
  · rw [if_pos hp]
    refine ⟨?_, hnodup, hbav, ?_⟩
    · intro x hx hact
      rcases mem_setAdd.mp hact with hxa | rfl
      · exact hdisj x hx (mem_setDelete.mp hxa).1
      · exact hdisj x hx hs
    · intro x hx
      rcases mem_setAdd.mp hx with hxa | rfl
      · exact hbac x (mem_setDelete.mp hxa).1
      · exact hbac x hs
  · rw [if_neg hp]
    have hsnotav : s ∉ st.availableSessions := fun hmem => hdisj s hmem hs
    refine ⟨?_, ?_, ?_, ?_⟩
    · intro x hx hact
      rcases List.mem_append.mp hx with hxa | hxs
      · exact hdisj x hxa (mem_setDelete.mp hact).1
      · rw [List.mem_singleton.mp hxs] at hact
        exact (mem_setDelete.mp hact).2 rfl
    · rw [List.nodup_append]
      exact ⟨hnodup, List.nodup_singleton s,
        fun x hx hxs => hsnotav (by rwa [← List.mem_singleton.mp hxs])⟩
    · intro x hx
      rcases List.mem_append.mp hx with hxa | hxs
      · exact hbav x hxa
      · rw [List.mem_singleton.mp hxs]
        exact hbac s hs
    · intro x hx
      exact hbac x (mem_setDelete.mp hx).1

/-- Invalidation preserves the invariant. -/
theorem sessionInv_invalidate (st : AdapterState) (s : Nat)
    (h : SessionInv st) : SessionInv (invalidateSession st s) := by
  obtain ⟨hdisj, hnodup, hbav, hbac⟩ := h
  refine ⟨?_, hnodup.filter _, ?_, ?_⟩
  · intro x hx hact
    exact hdisj x (List.mem_filter.mp hx).1 (mem_setDelete.mp hact).1
  · intro x hx
    exact hbav x (List.mem_filter.mp hx).1
  · intro x hx
    exact hbac x (mem_setDelete.mp hx).1

/-- Each disciplined operation preserves the invariant. -/
theorem sessionInv_applyOp (st : AdapterState) (op : AdapterOp)
    (h : SessionInv st) (hwf : wfStep st op = true) : SessionInv (applyOp st op) := by
  cases op with
  | acquire validf =>
    simp only [applyOp]
    cases hacq : acquireSession validf st with
    | ok r =>
      simp only [hacq]
      exact (sessionInv_acquire validf st h r.1 r.2 (by rw [hacq])).1
    | error e =>
      simp only [hacq]
      exact h
  | release s => exact sessionInv_release st s h (of_decide_eq_true hwf)
  | invalidate s => exact sessionInv_invalidate st s h

/-- The invariant holds after any disciplined operation sequence. -/
theorem sessionInv_runOps :
    ∀ (ops : List AdapterOp) (st : AdapterState), SessionInv st →
      wfOps st ops = true → SessionInv (runOps st ops) := by
  intro ops
  induction ops with
  | nil => intro st h _; exact h
  | cons op rest ih =>
    intro st h hwf
    unfold wfOps at hwf
    rw [Bool.and_eq_true] at hwf
    exact ih (applyOp st op) (sessionInv_applyOp st op h hwf.1) hwf.2

end DbMcp

namespace DbMcp

/-- C6 (amended): for every sequence of `acquireSession`, `releaseSession` and
`invalidateSession` operations in which every released session is currently in
the active set (the discipline `raw` follows: one release per held session),
the available and active sets stay disjoint — no session is ever in both —
and every session returned by `acquireSession` is in the active set and not in
the available set at the moment of return. Without the release discipline the
property fails (see the double-release counterexample). -/
theorem session_sets_disjoint (st : AdapterState) (ops : List AdapterOp)
    (h : SessionInv st) (hwf : wfOps st ops = true) :
    (∀ s ∈ (runOps st ops).availableSessions, s ∉ (runOps st ops).activeSessions) ∧
      ∀ (validf : Nat → Bool) (s : Nat) (st' : AdapterState),
        acquireSession validf (runOps st ops) = .ok (some s, st') →
          s ∈ st'.activeSessions ∧ s ∉ st'.availableSessions := by
  have hinv := sessionInv_runOps ops st h hwf
  refine ⟨hinv.1, ?_⟩
  intro validf s st' hacq
  exact (sessionInv_acquire validf (runOps st ops) hinv (some s) st' hacq).2 s rfl

/-- Counterexample to C6 as stated (over unrestricted operation sequences):
acquire a session, release it twice, then acquire again — the session ends up
in the available and active sets simultaneously. -/
theorem session_sets_double_release_counterexample :
    1 ∈ (runOps adapterInit [AdapterOp.acquire (fun _ => true), AdapterOp.release 1,
        AdapterOp.release 1, AdapterOp.acquire (fun _ => true)]).availableSessions ∧
      1 ∈ (runOps adapterInit [AdapterOp.acquire (fun _ => true), AdapterOp.release 1,
        AdapterOp.release 1, AdapterOp.acquire (fun _ => true)]).activeSessions := by
  decide

/-- Witness for the amended C6: after a disciplined acquire/release/acquire
sequence the handed-out session 1 is active and not available. -/
theorem session_sets_disjoint_witness :
    1 ∈ (runOps adapterInit [AdapterOp.acquire (fun _ => true), AdapterOp.release 1,
        AdapterOp.acquire (fun _ => true)]).activeSessions ∧
      1 ∉ (runOps adapterInit [AdapterOp.acquire (fun _ => true), AdapterOp.release 1,
        AdapterOp.acquire (fun _ => true)]).availableSessions := by
  have h := (session_sets_disjoint adapterInit
    [AdapterOp.acquire (fun _ => true), AdapterOp.release 1]
    ⟨fun s hs => by simp [adapterInit] at hs, List.nodup_nil,
      fun s hs => by simp [adapterInit] at hs, fun s hs => by simp [adapterInit] at hs⟩
    (by decide)).2
    (fun _ => true) 1
    (runOps adapterInit [AdapterOp.acquire (fun _ => true), AdapterOp.release 1,
      AdapterOp.acquire (fun _ => true)])
    rfl
  exact h

/-- C10: after `destroy()` every subsequent `acquireSession` throws
`Connection pool has been destroyed` without touching any session; `destroy`
is idempotent; and destroying a live adapter leaves the session list, the
available list, the active set and the pending-request queue all empty. -/
theorem destroy_idempotent_rejects_acquire (st : AdapterState) (validf : Nat → Bool) :
    acquireSession validf (destroyAdapter st) =
        .error "Connection pool has been destroyed" ∧
      destroyAdapter (destroyAdapter st) = destroyAdapter st ∧
      (st.isDestroyed = false →
        (destroyAdapter st).sessions = [] ∧
          (destroyAdapter st).availableSessions = [] ∧
          (destroyAdapter st).activeSessions = [] ∧
          (destroyAdapter st).pendingRequests = 0) := by
  by_cases h : st.isDestroyed
  · refine ⟨?_, ?_, ?_⟩
    · simp [destroyAdapter, acquireSession, h]
    · simp [destroyAdapter, h]
    · intro hfalse
      rw [h] at hfalse
      exact absurd hfalse (by simp)
  · refine ⟨?_, ?_, ?_⟩
    · simp [destroyAdapter, acquireSession, h]
    · simp [destroyAdapter, h]
    · intro _
      simp [destroyAdapter, h]

/-- Witness for C10 on a concrete live adapter. -/
theorem destroy_idempotent_rejects_acquire_witness :
    acquireSession (fun _ => true) (destroyAdapter adapterInit) =
        .error "Connection pool has been destroyed" ∧
      (destroyAdapter adapterInit).sessions = [] := by
  have h := destroy_idempotent_rejects_acquire adapterInit (fun _ => true)
  exact ⟨h.1, (h.2.2 rfl).1⟩

end DbMcp

namespace DbMcp

/-- C3: whenever the permission verifier reports a writable session during
`createPool` (connectivity having succeeded), `createPool` destroys the
just-built pool, removes every registry entry for the key, and raises the
write-permission-detected error, so that afterwards `getPool` returns `null`
and the pool-stats view has no entry for the key. Holds whichever side of
`createPool`'s return the old pool's unawaited close settles on. -/
theorem createPool_write_permission_cleanup (env : CreatePoolEnv) (dbKey : String)
    (st : CMState) (hc : env.connectOk = true) (hro : env.readOnly = false) :
    (createPool env dbKey st).2 = .error .writePermissionDetected ∧
      getPool (createPool env dbKey st).1 dbKey = none ∧
      getAllPoolStats (createPool env dbKey st).1 dbKey = none ∧
      (createPool env dbKey st).1.poolConfigs dbKey = none ∧
      st.nextPoolId ∈ (createPool env dbKey st).1.destroyedPools := by
  cases hpool : st.pools dbKey with
  | none =>
    refine ⟨?_, ?_, ?_, ?_, ?_⟩ <;>
      simp [createPool, hpool, hc, hro, createPoolCleanup, mapDelete, getPool,
        getAllPoolStats]
  | some oldPid =>
    by_cases hl : env.lateClose <;>
      refine ⟨?_, ?_, ?_, ?_, ?_⟩ <;>
        simp [createPool, hpool, hc, hro, hl, createPoolCleanup,
          closePoolDeferredPart, closePoolSyncPart, mapDelete, getPool,
          getAllPoolStats]

/-- A concrete environment whose permission verifier reports writable. -/
def writableEnv : CreatePoolEnv :=
  ⟨false, true, false, 0, false⟩

/-- Witness for C3: on an empty registry, creating a pool for `db` with a
writable session is rejected and leaves no residual entries. -/
theorem createPool_write_permission_cleanup_witness :
    (createPool writableEnv "db" emptyRegistry).2 = .error .writePermissionDetected ∧
      getPool (createPool writableEnv "db" emptyRegistry).1 "db" = none ∧
      getAllPoolStats (createPool writableEnv "db" emptyRegistry).1 "db" = none := by
  have h := createPool_write_permission_cleanup writableEnv "db" emptyRegistry rfl rfl
  exact ⟨h.1, h.2.1, h.2.2.1⟩

/-- The registry state after every pending continuation has settled: when the
old pool's `destroy()` resolves only after `createPool` returned
(`lateClose`), the deferred `closePool` deletions still run afterwards. -/
def createPoolFinal (env : CreatePoolEnv) (dbKey : String) (st : CMState) :
    CMState × Except CMError Nat :=
  let r := createPool env dbKey st
  if (st.pools dbKey).isSome && env.lateClose then
    (closePoolDeferredPart r.1 dbKey ((st.pools dbKey).getD 0), r.2)
  else r

/-- Environment of a reconfiguration call: traditional client, connectivity
fine, verifier read-only, old destroy settling before `createPool` returns. -/
def reconfigEnv : CreatePoolEnv :=
  ⟨false, true, true, 100, false⟩

/-- Environment of a reconfiguration call whose old destroy settles only
after `createPool` returns. -/
def reconfigEnvLate : CreatePoolEnv :=
  ⟨false, true, true, 100, true⟩

/-- C8 fails on the code: `createPool` calls `closePool(dbKey)` without
`await`, so reconfiguring an existing key succeeds (`ok` with the new pool)
yet the old pool's deferred cleanup deletes the new pool's registry entries:
`getPool` yields `null`, the stats view has no entry, and no monitor runs for
the key — and with the destroy settling late, the same is true once it
settles. -/
theorem createPool_reconfigure_loses_new_pool :
    (createPool reconfigEnv "db" sampleRegistry).2 = .ok 1 ∧
      getPool (createPool reconfigEnv "db" sampleRegistry).1 "db" = none ∧
      getAllPoolStats (createPool reconfigEnv "db" sampleRegistry).1 "db" = none ∧
      (createPool reconfigEnv "db" sampleRegistry).1.monitoring "db" = none ∧
      (createPoolFinal reconfigEnvLate "db" sampleRegistry).2 = .ok 1 ∧
      getPool (createPoolFinal reconfigEnvLate "db" sampleRegistry).1 "db" = none := by
  refine ⟨rfl, ?_, ?_, ?_, rfl, ?_⟩ <;> decide

end DbMcp
